import Mathlib

/-!
Verification development for the kite-app repository: a shallow embedding of
the contract-deployment and source-verification flows.

The embedding covers:
- the type coercer `convertParamValue` (src/app/tx/[id]/page.tsx);
- the multi-call batch builder of `handleExecuteTransaction` (same file);
- the constructor-argument pipeline of the deploy page (src/app/[id]/page.tsx):
  `finalArgs`, `encodedArgs`, the deploy-time argument-count check, and the
  request body sent by `handleVerifyContract`;
- the verification route (POST handler): the form built by
  `submitVerification`, the status-polling loop with its attempt budget, and
  the response the route returns, together with an event trace recording the
  storage-connection lifecycle around the handler.

External collaborators (the viem ABI encoder, the network, the document
store) are represented as explicit parameters or as input data; a small
concrete model of the ABI parameter encoder is provided so that concrete
runs can be evaluated.
-/

namespace Kite

/-- Typed value produced by the tx-page coercer: either a raw string carried
through unchanged, or a JavaScript boolean produced by the bool branch. -/
inductive TypedValue where
  | str (s : String)
  | boolean (b : Bool)
deriving DecidableEq, Repr

/-- Prefix test on lists, used to model JavaScript `String.includes`. -/
def listStartsWith : List Char → List Char → Bool
  | [], _ => true
  | _ :: _, [] => false
  | a :: as, b :: bs => a == b && listStartsWith as bs

/-- Substring occurrence test on lists (needle, haystack). -/
def listHasSub (needle : List Char) : List Char → Bool
  | [] => needle.isEmpty
  | b :: bs => listStartsWith needle (b :: bs) || listHasSub needle bs

/-- Model of JavaScript `hay.includes(needle)`. -/
def jsIncludes (hay needle : String) : Bool :=
  listHasSub needle.toList hay.toList

/-- `convertParamValue` from src/app/tx/[id]/page.tsx, translated branch by
branch: empty input is returned as the empty string; `bool`/`boolean` compares
the lowercased value with the literal `"true"`; integer, address and bytes
types return the raw string unchanged (the TypeScript casts are identities at
runtime); every other type also returns the string unchanged. The source
wraps the branches in try/catch whose handler returns the original value, and
none of the branch operations can throw, so the embedding is total. -/
def convertParamValue (value : String) (type : String) : TypedValue :=
  if value = "" then .str ""
  else if type = "bool" ∨ type = "boolean" then .boolean (value.toLower = "true")
  else if jsIncludes type "uint" ∨ jsIncludes type "int" then .str value
  else if type = "address" then .str value
  else if type = "bytes" ∨ type.startsWith "bytes" then .str value
  else .str value

/-- Modelled from the spec (section 4.1, Type Coercer): the empty string maps
to the empty sentinel; `bool`/`boolean` is a case-insensitive comparison with
the literal "true"; every other type preserves the raw string verbatim; the
coercion is total. -/
def coerceSpec (value : String) (typeName : String) : TypedValue :=
  if value = "" then .str ""
  else if typeName = "bool" ∨ typeName = "boolean" then .boolean (value.toLower = "true")
  else .str value

/-- C6: for every string value and every ABI type name, the tx-page coercer
agrees with the specification reference definition: empty input yields the
empty sentinel, bool/boolean yields true exactly when the value equals "true"
case-insensitively (false on any other non-empty text, with no error), and
every other type returns the input string unchanged; both sides are total
Lean functions, so coercion never throws. -/
theorem convertParamValue_matches_coerceSpec (value type : String) :
    convertParamValue value type = coerceSpec value type := by
  unfold convertParamValue coerceSpec
  split_ifs <;> rfl

/-- One ABI parameter of a stored function: name, type and the default value
shipped with the stored transaction record. -/
structure FunctionParam where
  name : String
  type : String
  value : String
deriving DecidableEq, Repr

/-- One stored function fragment consumed by the tx page: function name,
target contract address and ordered parameter list. -/
structure FunctionData where
  name : String
  contract_address : String
  params : List FunctionParam
deriving DecidableEq, Repr

/-- One call descriptor pushed onto the `calls` array of
`handleExecuteTransaction`. Selector computation and argument packing are
performed by the external `encodeFunctionData` collaborator, so the
descriptor carries the function name and the coerced argument list that the
page hands to it, together with the target address (the `to` field of the
source, renamed because `to` is reserved in Lean) and the zero value. -/
structure Call where
  toAddress : String
  functionName : String
  args : List TypedValue
  value : Nat
deriving DecidableEq, Repr

/-- `getCurrentParamValue` from src/app/tx/[id]/page.tsx: looks up the key
`"{funcIndex}_{paramIndex}"` in the form-state record and falls back to the
empty string when the key is absent (the JavaScript `|| ""` also maps a
stored empty string to the empty string, which the lookup-then-default
reproduces because the default equals the empty string). -/
def getCurrentParamValue (paramValues : List (String × String))
    (funcIndex paramIndex : Nat) : String :=
  match paramValues.lookup (s!"{funcIndex}_{paramIndex}") with
  | some v => v
  | none => ""

/-- The argument array built for one fragment: the source maps over the
declared parameters with their positional index, coercing the current form
value of each. The index accumulator mirrors `paramIndex`. -/
def buildArgsGo (paramValues : List (String × String)) (funcIndex : Nat) :
    Nat → List FunctionParam → List TypedValue
  | _, [] => []
  | j, p :: ps =>
      convertParamValue (getCurrentParamValue paramValues funcIndex j) p.type ::
        buildArgsGo paramValues funcIndex (j + 1) ps

/-- The call descriptor built for the fragment at `funcIndex`. -/
def mkCall (paramValues : List (String × String)) (funcIndex : Nat)
    (f : FunctionData) : Call :=
  { toAddress := f.contract_address
    functionName := f.name
    args := buildArgsGo paramValues funcIndex 0 f.params
    value := 0 }

/-- The `for` loop of `handleExecuteTransaction`, with `funcIndex` as the
accumulator: one call descriptor per fragment, in fragment order. -/
def buildCallsGo (paramValues : List (String × String)) :
    Nat → List FunctionData → List Call
  | _, [] => []
  | i, f :: fs => mkCall paramValues i f :: buildCallsGo paramValues (i + 1) fs

/-- The batch builder of `handleExecuteTransaction`: builds the whole `calls`
array from the stored fragments and the keyed form state. The source loop
contains no argument-count validation and no early exit, so the embedding is
a total function into a list of calls. -/
def buildCalls (paramValues : List (String × String))
    (functions : List FunctionData) : List Call :=
  buildCallsGo paramValues 0 functions

/-- The number of declared positions of the fragment at `funcIndex` for which
the form state actually holds an entry: the supplied value count of the
claim. -/
def suppliedCount (paramValues : List (String × String)) (funcIndex : Nat)
    (params : List FunctionParam) : Nat :=
  ((List.range params.length).filter
    (fun j => (paramValues.lookup (s!"{funcIndex}_{j}")).isSome)).length

/-- The constructor argument-count validation of `handleDeploy`
(src/app/[id]/page.tsx, lines 222-229): the only count check in the
repository. It rejects with the quoted message exactly when the declared
count differs from the built argument count, aborting before any deployment. -/
def deployArgCountCheck (requiredArgs actualArgs : Nat) : Except String Unit :=
  if requiredArgs ≠ actualArgs then
    .error s!"Constructor expects {requiredArgs} arg(s), but received {actualArgs}."
  else .ok ()

theorem buildArgsGo_length (paramValues : List (String × String))
    (funcIndex : Nat) : ∀ (j : Nat) (ps : List FunctionParam),
    (buildArgsGo paramValues funcIndex j ps).length = ps.length := by
  intro j ps
  induction ps generalizing j with
  | nil => rfl
  | cons p ps ih => simpa [buildArgsGo] using ih (j + 1)

theorem buildCallsGo_length (paramValues : List (String × String)) :
    ∀ (i : Nat) (fns : List FunctionData),
    (buildCallsGo paramValues i fns).length = fns.length := by
  intro i fns
  induction fns generalizing i with
  | nil => rfl
  | cons f fs ih => simpa [buildCallsGo] using ih (i + 1)

theorem buildCallsGo_getD (paramValues : List (String × String))
    (dc : Call) (df : FunctionData) :
    ∀ (i k : Nat) (fns : List FunctionData), i < fns.length →
    (buildCallsGo paramValues k fns).getD i dc =
      mkCall paramValues (k + i) (fns.getD i df) := by
  intro i k fns
  induction fns generalizing i k with
  | nil => intro h; exact absurd h (by simp)
  | cons f fs ih =>
      intro h
      cases i with
      | zero => simp [buildCallsGo]
      | succ n =>
          have hn : n < fs.length := by simpa using Nat.lt_of_succ_lt_succ h
          have := ih n (k + 1) hn
          simpa [buildCallsGo, Nat.add_comm, Nat.add_left_comm] using this

/-- A dummy call used as the `getD` default in statements. -/
def dummyCall : Call := { toAddress := "", functionName := "", args := [], value := 0 }

/-- A dummy fragment used as the `getD` default in statements. -/
def dummyFn : FunctionData := { name := "", contract_address := "", params := [] }

/-- A concrete stored fragment with one declared parameter, used to exercise
the batch builder on a form state that supplies no value at all. -/
def greetFn : FunctionData :=
  { name := "greet"
    contract_address := "0x00000000000000000000000000000000c0ffee00"
    params := [{ name := "msg", type := "string", value := "" }] }

/-- C1 counterexample: a batch whose single fragment declares one parameter
while the form state supplies zero values (supplied count 0, declared count
1). The claim requires the builder to reject this batch with a validation
error; instead `buildCalls` returns the complete one-call batch, silently
padding the missing value with the empty string. -/
theorem buildCalls_accepts_missing_value :
    suppliedCount [] 0 greetFn.params = 0 ∧
    greetFn.params.length = 1 ∧
    buildCalls [] [greetFn] =
      [{ toAddress := "0x00000000000000000000000000000000c0ffee00",
         functionName := "greet", args := [TypedValue.str ""], value := 0 }] :=
  ⟨rfl, rfl, rfl⟩

/-- C1 (amended): the batch builder of `handleExecuteTransaction` performs no
argument-count validation at all: it is total, produces exactly one call per
fragment, and each call's argument list has exactly the declared parameter
count because values are read positionally from the keyed form state with
missing entries defaulting to the empty string (silent padding, not
rejection). The only count validation in the repository is the deploy-path
check of `handleDeploy`, which succeeds exactly when the declared constructor
parameter count equals the built argument count and otherwise aborts with an
error naming the expected and actual counts. -/
theorem buildCalls_pads_and_only_deploy_checks_count
    (paramValues : List (String × String)) (fns : List FunctionData)
    (i : Nat) (hi : i < fns.length) :
    (buildCalls paramValues fns).length = fns.length ∧
    ((buildCalls paramValues fns).getD i dummyCall).args.length
      = (fns.getD i dummyFn).params.length ∧
    (∀ r a : Nat, deployArgCountCheck r a = Except.ok () ↔ r = a) := by
  refine ⟨buildCallsGo_length paramValues 0 fns, ?_, ?_⟩
  · rw [buildCalls, buildCallsGo_getD paramValues dummyCall dummyFn i 0 fns hi]
    simp [mkCall, buildArgsGo_length]
  · intro r a
    constructor
    · intro h
      by_contra hra
      simp [deployArgCountCheck, hra] at h
    · intro h
      simp [deployArgCountCheck, h]

/-- Witness for the amended C1 theorem at a concrete batch. -/
theorem buildCalls_pads_witness :
    (buildCalls [] [greetFn]).length = 1 ∧
    ((buildCalls [] [greetFn]).getD 0 dummyCall).args.length = 1 := by
  have h := buildCalls_pads_and_only_deploy_checks_count [] [greetFn] 0 (by decide)
  exact ⟨h.1, h.2.1⟩

/-- Drop the first `n` characters of a string (the JavaScript `slice(n)` of
the source, and the same function as `String.drop`, written over the
character list). -/
def strDrop (s : String) (n : Nat) : String :=
  String.mk (s.toList.drop n)

/-- One constructor parameter extracted from the parsed ABI on the deploy
page: name and type. -/
structure ConstructorParam where
  name : String
  type : String
deriving DecidableEq, Repr

/-- A value of the deploy page's `finalArgs` array: a raw string, a
JavaScript boolean, or a BigInt produced by the integer branch. -/
inductive DeployValue where
  | str (s : String)
  | boolean (b : Bool)
  | bigint (n : Int)
deriving DecidableEq, Repr

/-- The conversion applied to one dynamic-form value in the deploy page's
`finalArgs` memo (src/app/[id]/page.tsx, lines 146-170): empty value is kept
as the empty string; bool compares the lowercased text with "true"; a type
containing "int" but not "string" is converted with `BigInt(value)` (modelled
for canonical decimal text by `String.toInt?`; an unparsable value makes
`BigInt` throw, and the surrounding catch returns the raw string); all other
types keep the raw string. -/
def finalArgDyn (value : String) (p : ConstructorParam) : DeployValue :=
  if value = "" then .str ""
  else if p.type = "bool" ∨ p.type = "boolean" then .boolean (value.toLower = "true")
  else if jsIncludes p.type "int" && !(jsIncludes p.type "string") then
    match value.toInt? with
    | some n => .bigint n
    | none => .str value
  else .str value

/-- The accumulator recursion behind `finalArgsDyn`, mirroring the indexed
map over `constructorParams`. -/
def finalArgsDynGo (constructorArgs : List (String × String)) :
    Nat → List ConstructorParam → List DeployValue
  | _, [] => []
  | i, p :: ps =>
      finalArgDyn ((constructorArgs.lookup (s!"arg_{i}")).getD "") p ::
        finalArgsDynGo constructorArgs (i + 1) ps

/-- The deploy page's `finalArgs` in dynamic-form mode: one converted value
per declared constructor parameter, the value for position `i` read from the
form record at key `"arg_i"` with the empty-string default. -/
def finalArgsDyn (constructorArgs : List (String × String))
    (constructorParams : List ConstructorParam) : List DeployValue :=
  finalArgsDynGo constructorArgs 0 constructorParams

/-- The `encodedArgs` memo of the deploy page (src/app/[id]/page.tsx, lines
175-191), parameterized over the external ABI parameter encoder
(`encodeAbiParameters` from viem), which receives the declared type list and
the built value list and either returns a 0x-prefixed hex string or fails:
when the parameter list or the value list is empty the memo returns the empty
string without calling the encoder; on encoder success it strips the two
0x characters (the source's `slice(2)`); on encoder failure it catches, logs
and returns the empty string. -/
def encodedArgs (enc : List String → List DeployValue → Except String String)
    (constructorParams : List ConstructorParam)
    (finalArgs : List DeployValue) : String :=
  if constructorParams.length = 0 ∨ finalArgs.length = 0 then ""
  else
    match enc (constructorParams.map (fun p => p.type)) finalArgs with
    | .ok encoded => strDrop encoded 2
    | .error _ => ""

/-- The JSON body `handleVerifyContract` sends to POST /api/verify-contract:
contract id, deployed address, and the encoded constructor arguments. -/
structure VerifyRequestBody where
  contractId : String
  contractAddress : String
  constructorArgs : String
deriving DecidableEq, Repr

/-- The body built by `handleVerifyContract` (src/app/[id]/page.tsx, lines
281-291): the fetch to the verification route is made whenever a contract
address and contract record are present, always carrying `encodedArgs`. -/
def handleVerifyBody (enc : List String → List DeployValue → Except String String)
    (contractId contractAddress : String)
    (constructorParams : List ConstructorParam)
    (finalArgs : List DeployValue) : VerifyRequestBody :=
  { contractId := contractId
    contractAddress := contractAddress
    constructorArgs := encodedArgs enc constructorParams finalArgs }

/-- The stored contract record fields the verification route reads. String
fields use the empty string for a missing/falsy value, matching the
JavaScript truthiness tests applied to them. -/
structure ContractData where
  name : String
  contractName : String
  source : String
  sourcePath : String
  compilerVersion : String
  optimizerEnabled : Bool
  evmVersion : String
deriving DecidableEq, Repr

/-- The form fields assembled by `submitVerification` (unnamed route file,
lines 55-71) that vary with its inputs; constant fields (apikey, chainid,
module, action, codeformat) are omitted. -/
structure SubmissionForm where
  contractaddress : String
  contractname : String
  compilerversion : String
  constructorArguments : String
  optimizationUsed : String
  runs : String
  sourceCode : String
  evmversion : String
deriving DecidableEq, Repr

/-- The pure part of `submitVerification`: source selection
(`contractData.source || contractData.sourcePath || ""`), the no-source
error, and the form construction; `constructorArgs ?? ""` is nullish
coalescing, so an empty string passes through unchanged while an absent
value becomes the empty string. The network exchange and JSON parsing of the
response are external and are modelled as route inputs. -/
def submitVerificationForm (c : ContractData) (contractAddress : String)
    (constructorArgs : Option String) : Except String SubmissionForm :=
  let sourceCode := if c.source ≠ "" then c.source else c.sourcePath
  if sourceCode = "" then .error "No source code found in contract data"
  else
    .ok
      { contractaddress := contractAddress
        contractname :=
          if c.contractName ≠ "" then c.contractName
          else if c.name ≠ "" then c.name else "Contract"
        compilerversion := "v" ++ c.compilerVersion
        constructorArguments := constructorArgs.getD ""
        optimizationUsed := if c.optimizerEnabled then "1" else "0"
        runs := "200"
        sourceCode := sourceCode
        evmversion := c.evmVersion }

/-- Hexadecimal digit test (both cases), for address validation. -/
def isHexChar (c : Char) : Bool :=
  c.isDigit || ('a' <= c && c <= 'f') || ('A' <= c && c <= 'F')

/-- A natural number printed in lowercase hexadecimal. -/
def natToHex (n : Nat) : String :=
  String.mk (Nat.toDigits 16 n)

/-- Left-pad a string with zeros up to the given length. -/
def padLeftZeros (s : String) (len : Nat) : String :=
  String.mk (List.replicate (len - s.toList.length) '0') ++ s

/-- One 32-byte ABI word (64 hex characters) holding a natural number. -/
def abiWord (n : Nat) : String :=
  padLeftZeros (natToHex n) 64

/-- Concatenation of a list of strings. -/
def concatAll (l : List String) : String :=
  l.foldl (fun a b => a ++ b) ""

/-- UTF-8 byte sequence of one character, by codepoint range. -/
def utf8BytesOfChar (c : Char) : List Nat :=
  let n := c.toNat
  if n < 128 then [n]
  else if n < 2048 then [192 + n / 64, 128 + n % 64]
  else if n < 65536 then [224 + n / 4096, 128 + (n / 64) % 64, 128 + n % 64]
  else [240 + n / 262144, 128 + (n / 4096) % 64, 128 + (n / 64) % 64, 128 + n % 64]

/-- UTF-8 byte sequence of a string. -/
def strUtf8Bytes (s : String) : List Nat :=
  (s.toList.map utf8BytesOfChar).flatten

/-- Two lowercase hex digits of one byte. -/
def byteHex (b : Nat) : String :=
  padLeftZeros (natToHex b) 2

/-- The tail encoding of a dynamic string: its byte length as an ABI word
followed by its UTF-8 bytes in hex, right-padded to a 32-byte boundary. -/
def abiStringData (s : String) : String :=
  let bytes := strUtf8Bytes s
  let hx := concatAll (bytes.map byteHex)
  abiWord bytes.length ++ hx ++
    String.mk (List.replicate ((64 - hx.toList.length % 64) % 64) '0')

/-- Model of one parameter encoding step of the external `encodeAbiParameters`
(viem), restricted to the scalar types exercised in this development; returns
whether the parameter is dynamic together with its payload (head word for
static types, tail data for dynamic ones). Mirrors viem's validation: an
address must be 0x-prefixed, 42 characters and hexadecimal, a bool must be a
boolean, an unsigned integer must be a non-negative number, a string encodes
as dynamic data. -/
def encodeAbiParam (t : String) (v : DeployValue) : Except String (Bool × String) :=
  if t = "address" then
    match v with
    | .str s =>
        if listStartsWith "0x".toList s.toList && s.toList.length = 42 &&
            (s.toList.drop 2).all isHexChar then
          .ok (false, padLeftZeros (String.mk ((s.toList.drop 2).map Char.toLower)) 64)
        else .error ("InvalidAddressError: " ++ s)
    | _ => .error "InvalidAddressError: non-string value"
  else if t = "bool" then
    match v with
    | .boolean b => .ok (false, abiWord (if b then 1 else 0))
    | _ => .error "InvalidBoolError"
  else if jsIncludes t "uint" then
    match v with
    | .bigint n => if 0 <= n then .ok (false, abiWord n.toNat) else .error "IntegerOutOfRangeError"
    | .str s =>
        match s.toNat? with
        | some n => .ok (false, abiWord n)
        | none => .error "IntegerOutOfRangeError"
    | .boolean _ => .error "InvalidIntegerError"
  else if t = "string" then
    match v with
    | .str s => .ok (true, abiStringData s)
    | _ => .error "InvalidStringError"
  else .error ("UnsupportedAbiType: " ++ t)

/-- Left-to-right encoding of a parameter list, stopping at the first
failure. -/
def encodeAbiParamsList : List (String × DeployValue) → Except String (List (Bool × String))
  | [] => .ok []
  | (t, v) :: rest =>
      match encodeAbiParam t v with
      | .error e => .error e
      | .ok p =>
          match encodeAbiParamsList rest with
          | .error e => .error e
          | .ok ps => .ok (p :: ps)

/-- Head/tail assembly of encoded parameters: static payloads go into the
head area, dynamic payloads append to the tail area with an offset word in
the head; offsets count bytes from the start of the head area. The
accumulator carries (heads, tails, next tail offset in bytes). -/
def abiAssemble : List (Bool × String) → String × String × Nat → String × String × Nat
  | [], acc => acc
  | (false, payload) :: rest, (hs, ts, off) =>
      abiAssemble rest (hs ++ payload, ts, off)
  | (true, payload) :: rest, (hs, ts, off) =>
      abiAssemble rest (hs ++ abiWord off, ts ++ payload, off + payload.toList.length / 2)

/-- Model of the external `encodeAbiParameters` (viem) over the scalar types
of this development: rejects a length mismatch between types and values,
encodes each parameter, assembles heads and tails, and returns a 0x-prefixed
hex string. The deploy-page definitions are parameterized over the encoder;
this concrete model instantiates them in concrete runs. -/
def encodeAbiParametersModel (types : List String) (values : List DeployValue) :
    Except String String :=
  if types.length ≠ values.length then .error "AbiEncodingLengthMismatchError"
  else
    match encodeAbiParamsList (types.zip values) with
    | .error e => .error e
    | .ok parts =>
        let assembled := abiAssemble parts ("", "", 32 * parts.length)
        .ok ("0x" ++ assembled.1 ++ assembled.2.1)

/-- The error message of a failed computation, if any. -/
def excError (r : Except String String) : Option String :=
  match r with
  | .error e => some e
  | .ok _ => none

/-- The constructorArguments field of a successfully built submission form,
if any. -/
def formConstructorArguments (r : Except String SubmissionForm) : Option String :=
  match r with
  | .ok f => some f.constructorArguments
  | .error _ => none

/-- A concrete address-typed constructor parameter. -/
def addressParam : ConstructorParam := { name := "owner", type := "address" }

/-- A concrete string-typed constructor parameter. -/
def stringParam : ConstructorParam := { name := "s", type := "string" }

/-- A concrete stored contract record with source code present. -/
def demoContract : ContractData :=
  { name := "DCA"
    contractName := "DCA"
    source := "contract DCA \x7b\x7d"
    sourcePath := ""
    compilerVersion := "0.8.20"
    optimizerEnabled := true
    evmVersion := "paris" }

/-- C4 counterexample: an address string too short for its declared type
(`"0x123"` for `address`) makes the encoder fail, yet `encodedArgs` returns
the plain empty string instead of propagating a typed error, the verify
request body is still built, and the submitter's form construction succeeds,
carrying an empty constructorArguments field — the submitter is called with
the failed encoding's fallback. -/
theorem encodedArgs_failure_swallowed_cex :
    excError (encodeAbiParametersModel ["address"] [DeployValue.str "0x123"]) =
      some "InvalidAddressError: 0x123" ∧
    encodedArgs encodeAbiParametersModel [addressParam] [DeployValue.str "0x123"] = "" ∧
    (handleVerifyBody encodeAbiParametersModel "cid" "0xdeployed" [addressParam]
        [DeployValue.str "0x123"]).constructorArgs = "" ∧
    formConstructorArguments (submitVerificationForm demoContract "0xdeployed"
        (some (encodedArgs encodeAbiParametersModel [addressParam]
          [DeployValue.str "0x123"]))) = some "" := by
  refine ⟨by decide, by decide, by decide, by decide⟩

/-- C4 (amended): for every encoder failure on a constructor argument set,
`encodedArgs` catches the error and falls back to the empty string (no typed
error propagates), the request body sent to the verification route carries
that empty string, and the submitter's form construction still succeeds with
an empty constructorArguments field whenever the stored record has source
code — the submitter is not prevented from running. -/
theorem encodedArgs_failure_falls_back_empty
    (enc : List String → List DeployValue → Except String String)
    (ps : List ConstructorParam) (args : List DeployValue) (e : String)
    (henc : excError (enc (ps.map (fun p => p.type)) args) = some e)
    (c : ContractData) (cid caddr addr : String)
    (hsource : c.source ≠ "" ∨ c.sourcePath ≠ "") :
    encodedArgs enc ps args = "" ∧
    (handleVerifyBody enc cid caddr ps args).constructorArgs = "" ∧
    formConstructorArguments
      (submitVerificationForm c addr (some (encodedArgs enc ps args))) = some "" := by
  have h1 : encodedArgs enc ps args = "" := by
    unfold encodedArgs
    split
    · rfl
    · cases hcase : enc (ps.map (fun p => p.type)) args with
      | ok v => rw [hcase] at henc; simp [excError] at henc
      | error e2 => rfl
  refine ⟨h1, ?_, ?_⟩
  · simp [handleVerifyBody, h1]
  · rw [h1]
    rcases hsource with hs | hs
    · simp [submitVerificationForm, formConstructorArguments, hs]
    · by_cases h2 : c.source = ""
      · simp [submitVerificationForm, formConstructorArguments, h2, hs]
      · simp [submitVerificationForm, formConstructorArguments, h2]

/-- Witness for the amended C4 theorem at the short-address input. -/
theorem encodedArgs_failure_falls_back_empty_witness :
    encodedArgs encodeAbiParametersModel [addressParam] [DeployValue.str "0xbad"] = "" :=
  (encodedArgs_failure_falls_back_empty encodeAbiParametersModel [addressParam]
    [DeployValue.str "0xbad"] "InvalidAddressError: 0xbad" (by decide) demoContract
    "cid" "0xdeployed" "0xdeployed" (Or.inl (by decide))).1

/-- C5 counterexample: a constructor whose parameter list is non-empty and
whose single supplied value is the empty sentinel: `finalArgs` carries the
empty string, the empty-value guard does not fire (only empty lists are
guarded), encoding is attempted and succeeds for the `string` type, and
`encodedArgs` returns a non-empty 128-character encoding instead of the
empty string the claim requires. -/
theorem encodedArgs_empty_sentinel_encoded_cex :
    finalArgsDyn [("arg_0", "")] [stringParam] = [DeployValue.str ""] ∧
    encodedArgs encodeAbiParametersModel [stringParam]
        (finalArgsDyn [("arg_0", "")] [stringParam]) = abiWord 32 ++ abiWord 0 ∧
    abiWord 32 ++ abiWord 0 ≠ "" := by
  refine ⟨by decide, by decide, by decide⟩

/-- C5 (amended): when the constructor parameter list is empty or the built
value array is empty, `encodedArgs` returns the empty string without calling
the encoder, and the submission payload's constructorArguments field is the
empty string; a non-empty value array containing the empty sentinel is not
guarded — encoding is attempted on it. -/
theorem encodedArgs_empty_lists_empty_string
    (enc : List String → List DeployValue → Except String String)
    (ps : List ConstructorParam) (args : List DeployValue)
    (h : ps = [] ∨ args = [])
    (c : ContractData) (cid caddr addr : String)
    (hsource : c.source ≠ "" ∨ c.sourcePath ≠ "") :
    encodedArgs enc ps args = "" ∧
    (handleVerifyBody enc cid caddr ps args).constructorArgs = "" ∧
    formConstructorArguments
      (submitVerificationForm c addr (some (encodedArgs enc ps args))) = some "" := by
  have h1 : encodedArgs enc ps args = "" := by
    rcases h with h | h <;> simp [encodedArgs, h]
  refine ⟨h1, ?_, ?_⟩
  · simp [handleVerifyBody, h1]
  · rw [h1]
    rcases hsource with hs | hs
    · simp [submitVerificationForm, formConstructorArguments, hs]
    · by_cases h2 : c.source = ""
      · simp [submitVerificationForm, formConstructorArguments, h2, hs]
      · simp [submitVerificationForm, formConstructorArguments, h2]

/-- Witness for the amended C5 theorem at a zero-parameter constructor. -/
theorem encodedArgs_empty_lists_empty_string_witness :
    encodedArgs encodeAbiParametersModel [] [] = "" ∧
    (handleVerifyBody encodeAbiParametersModel "cid" "0xdeployed" [] []).constructorArgs = "" :=
  let h := encodedArgs_empty_lists_empty_string encodeAbiParametersModel [] []
    (Or.inl rfl) demoContract "cid" "0xdeployed" "0xdeployed" (Or.inl (by decide))
  ⟨h.1, h.2.1⟩

/-- The parsed JSON body of one explorer status (or submission) response:
its status flag and its result text. A failed query (network error or
malformed body) is represented as `none` where an `Option StatusResult`
appears, matching `checkVerificationStatus`, whose catch handler returns
null. -/
structure StatusResult where
  status : String
  result : String
deriving DecidableEq, Repr

/-- The `finalStatus` values assigned by the route's poll loop, keyed by the
`status` string of the JSON object built in each branch; `verified` and
`failed` carry the explorer's result text stored alongside. -/
inductive FinalStatus where
  | verified (result : String)
  | pending
  | alreadyVerified
  | failed (result : String)
  | timeout
deriving DecidableEq, Repr

/-- The loop state when the poll loop exits: the final value of the
`attempts` counter, the final `finalStatus`, and the number of status
queries issued. -/
structure PollOut where
  attempts : Nat
  finalStatus : Option FinalStatus
  queries : Nat
deriving DecidableEq, Repr

/-- The route's fixed attempt budget (`maxAttempts`). -/
def maxAttempts : Nat := 30

/-- The `while (attempts < maxAttempts)` loop of the POST handler, with the
remaining iteration budget as fuel (the loop guard holds exactly when fuel
is positive, because `attempts` rises by one whenever the fuel falls by
one). Each iteration issues one status query, `obs n` being the parsed
response of the query made when the counter equals `n`. Branches, in source
order: a response with status "1" stores `verified` and breaks; result text
"Pending in queue" stores `pending` and continues; result text "Already
Verified" stores `alreadyVerified` and breaks; any other non-null response
stores `failed` with its result text and breaks; a null response changes
nothing. Continuing iterations sleep and increment `attempts`; breaking
ones do not. -/
def pollGo (obs : Nat → Option StatusResult) :
    Nat → Nat → Option FinalStatus → PollOut
  | 0, attempts, fs => ⟨attempts, fs, 0⟩
  | fuel + 1, attempts, fs =>
      match obs attempts with
      | some s =>
          if s.status = "1" then ⟨attempts, some (.verified s.result), 1⟩
          else if s.result = "Pending in queue" then
            let o := pollGo obs fuel (attempts + 1) (some .pending)
            ⟨o.attempts, o.finalStatus, o.queries + 1⟩
          else if s.result = "Already Verified" then ⟨attempts, some .alreadyVerified, 1⟩
          else ⟨attempts, some (.failed s.result), 1⟩
      | none =>
          let o := pollGo obs fuel (attempts + 1) fs
          ⟨o.attempts, o.finalStatus, o.queries + 1⟩

/-- The whole poll loop: thirty units of fuel, counter at zero, no final
status yet. -/
def pollLoop (obs : Nat → Option StatusResult) : PollOut :=
  pollGo obs maxAttempts 0 none

/-- The status reported after the loop: the post-loop fixup assigns
`timeout` exactly when the counter reached the budget with `finalStatus`
still null (`attempts >= maxAttempts && !finalStatus`). -/
def pollFinal (obs : Nat → Option StatusResult) : Option FinalStatus :=
  let o := pollLoop obs
  if maxAttempts ≤ o.attempts ∧ o.finalStatus = none then some .timeout
  else o.finalStatus

/-- Events of one POST /api/verify-contract request, in execution order:
opening the storage connection, the contract lookup, the verification
submission, each status query (tagged with the attempt counter at which it
was made), and closing the storage connection. -/
inductive Event where
  | connect
  | findContract
  | submit
  | statusQuery (attempt : Nat)
  | close
deriving DecidableEq, Repr

/-- The JSON payload and HTTP status the POST handler responds with. -/
structure RouteResponse where
  success : Bool
  httpStatus : Nat
  message : String
  error : Option String
  guid : Option String
  status : Option FinalStatus
deriving DecidableEq, Repr

/-- One handled request: the response together with the event trace. -/
structure RouteRun where
  response : RouteResponse
  events : List Event
deriving DecidableEq, Repr

/-- The POST handler of the verification route, over its external inputs:
the two body fields (the empty string standing for a missing/falsy field),
the looked-up contract record (`none` when neither lookup matched), the
submission outcome (`Except.error` when `submitVerification` threw — network
failure or non-JSON response — caught by the handler's top-level catch), and
the status observations consumed by the poll loop. Paths, in source order:
missing fields respond 400 before the connection opens; a missing record
responds 404; a record without source responds 400; a thrown submission is
caught as a 500 with the error message; a submission response with status
"1" runs the poll loop and responds 200 with success true, the tracking
guid, and the final status; any other submission response responds 400 with
success false and an error field carrying the service's result text if it
is non-empty and the placeholder "Unknown error" otherwise. The `finally`
clause closes the storage connection at the end of every path. -/
def verifyPOST (contractId contractAddress : String)
    (contract : Option ContractData)
    (submitOutcome : Except String StatusResult)
    (obs : Nat → Option StatusResult) : RouteRun :=
  if contractId = "" ∨ contractAddress = "" then
    ⟨⟨false, 400, "Contract ID and contract address are required", none, none, none⟩,
     [.close]⟩
  else
    match contract with
    | none =>
        ⟨⟨false, 404, "Contract not found in database", none, none, none⟩,
         [.connect, .findContract, .close]⟩
    | some c =>
        if c.source = "" ∧ c.sourcePath = "" then
          ⟨⟨false, 400, "Contract source code not found in database", none, none, none⟩,
           [.connect, .findContract, .close]⟩
        else
          match submitOutcome with
          | .error e =>
              ⟨⟨false, 500, "Failed to verify contract", some e, none, none⟩,
               [.connect, .findContract, .submit, .close]⟩
          | .ok vr =>
              if vr.status = "1" then
                ⟨⟨true, 200, "Verification process completed", none, some vr.result,
                  pollFinal obs⟩,
                 [.connect, .findContract, .submit] ++
                   (List.range (pollLoop obs).queries).map .statusQuery ++ [.close]⟩
              else
                ⟨⟨false, 400, "Verification submission failed",
                  some (if vr.result = "" then "Unknown error" else vr.result), none, none⟩,
                 [.connect, .findContract, .submit, .close]⟩

/-- Scanning a trace with the current connection state (`true` = open):
holds when every status query is issued while the connection is open. -/
def queriesWhileOpen : Bool → List Event → Bool
  | _, [] => true
  | _, .connect :: rest => queriesWhileOpen true rest
  | _, .close :: rest => queriesWhileOpen false rest
  | o, .statusQuery _ :: rest => o && queriesWhileOpen o rest
  | o, _ :: rest => queriesWhileOpen o rest

/-- Scanning a trace with the current connection state (`true` = open):
holds when some status query is issued while the connection is open. -/
def someQueryWhileOpen : Bool → List Event → Bool
  | _, [] => false
  | _, .connect :: rest => someQueryWhileOpen true rest
  | _, .close :: rest => someQueryWhileOpen false rest
  | o, .statusQuery _ :: rest => o || someQueryWhileOpen o rest
  | o, _ :: rest => someQueryWhileOpen o rest

/-- C3: the poll loop classifies every status response by the first matching
rule, in source order: status flag "1" yields `verified` and the loop exits
immediately with no further queries; otherwise result text "Pending in
queue" keeps the stored status `pending` and the loop continues into the
next iteration, counting one query; otherwise result text "Already Verified"
yields `alreadyVerified` and the loop exits; any other non-null response
yields `failed` carrying the response's result text and the loop exits. -/
theorem pollGo_classification_order (obs : Nat → Option StatusResult)
    (fuel attempts : Nat) (fs : Option FinalStatus) (s : StatusResult)
    (hobs : obs attempts = some s) :
    (s.status = "1" →
      pollGo obs (fuel + 1) attempts fs = ⟨attempts, some (.verified s.result), 1⟩) ∧
    (s.status ≠ "1" → s.result = "Pending in queue" →
      pollGo obs (fuel + 1) attempts fs =
        ⟨(pollGo obs fuel (attempts + 1) (some .pending)).attempts,
         (pollGo obs fuel (attempts + 1) (some .pending)).finalStatus,
         (pollGo obs fuel (attempts + 1) (some .pending)).queries + 1⟩) ∧
    (s.status ≠ "1" → s.result = "Already Verified" →
      pollGo obs (fuel + 1) attempts fs = ⟨attempts, some .alreadyVerified, 1⟩) ∧
    (s.status ≠ "1" → s.result ≠ "Pending in queue" → s.result ≠ "Already Verified" →
      pollGo obs (fuel + 1) attempts fs = ⟨attempts, some (.failed s.result), 1⟩) := by
  refine ⟨?_, ?_, ?_, ?_⟩
  · intro h1
    simp [pollGo, hobs, h1]
  · intro h1 h2
    simp [pollGo, hobs, h1, h2]
  · intro h1 h2
    simp [pollGo, hobs, h1, h2]
  · intro h1 h2 h3
    simp [pollGo, hobs, h1, h2, h3]

/-- Witness for the classification theorem: a first-attempt success flag
terminates the loop at once with the verified status. -/
theorem pollGo_classification_order_witness :
    pollGo (fun _ => some ⟨"1", "Pass - Verified"⟩) 1 0 none =
      ⟨0, some (.verified "Pass - Verified"), 1⟩ :=
  (pollGo_classification_order (fun _ => some ⟨"1", "Pass - Verified"⟩) 0 0 none
    ⟨"1", "Pass - Verified"⟩ rfl).1 rfl

/-- C8: a poll iteration whose status query errored (observation null, as
returned by the catch handler of `checkVerificationStatus`) does not
terminate the loop and does not change the stored status — the session is
not failed by that single query — and it counts exactly one query and one
attempt, the same one-unit consumption as a successful non-terminal
(pending) query. -/
theorem pollGo_null_consumes_one_attempt
    (obs obsB : Nat → Option StatusResult)
    (fuel attempts : Nat) (fs : Option FinalStatus) (s : StatusResult)
    (hnull : obs attempts = none)
    (hpend : obsB attempts = some s) (hs1 : s.status ≠ "1")
    (hs2 : s.result = "Pending in queue") :
    pollGo obs (fuel + 1) attempts fs =
      ⟨(pollGo obs fuel (attempts + 1) fs).attempts,
       (pollGo obs fuel (attempts + 1) fs).finalStatus,
       (pollGo obs fuel (attempts + 1) fs).queries + 1⟩ ∧
    (pollGo obsB (fuel + 1) attempts fs).queries =
      (pollGo obsB fuel (attempts + 1) (some .pending)).queries + 1 := by
  constructor
  · simp [pollGo, hnull]
  · simp [pollGo, hpend, hs1, hs2]

/-- Witness for the null-observation theorem at the first attempt of a
single-iteration budget. -/
theorem pollGo_null_consumes_one_attempt_witness :
    pollGo (fun _ => none) 1 0 none = ⟨1, none, 1⟩ := by
  have h := pollGo_null_consumes_one_attempt (fun _ => none)
    (fun _ => some ⟨"0", "Pending in queue"⟩) 0 0 none
    ⟨"0", "Pending in queue"⟩ rfl rfl (by decide) rfl
  exact h.1.trans (by decide)

/-- An observation that keeps the loop going: a null (errored) query, or a
response classified as pending (status flag not "1", result text "Pending in
queue"). -/
def isPendingObs (o : Option StatusResult) : Prop :=
  match o with
  | none => True
  | some s => s.status ≠ "1" ∧ s.result = "Pending in queue"

theorem pollGo_all_null (obs : Nat → Option StatusResult) :
    ∀ (fuel a : Nat) (fs : Option FinalStatus),
    (∀ i, a ≤ i → i < a + fuel → obs i = none) →
    pollGo obs fuel a fs = ⟨a + fuel, fs, fuel⟩ := by
  intro fuel
  induction fuel with
  | zero => intro a fs _; simp [pollGo]
  | succ n ih =>
      intro a fs h
      have ha : obs a = none := h a (Nat.le_refl a) (by omega)
      have ih2 := ih (a + 1) fs (by intro i h1 h2; exact h i (by omega) (by omega))
      rw [show a + (n + 1) = a + 1 + n from by omega]
      simp [pollGo, ha, ih2]

theorem pollGo_pending_keeps (obs : Nat → Option StatusResult) :
    ∀ (fuel a : Nat),
    (∀ i, a ≤ i → i < a + fuel → isPendingObs (obs i)) →
    pollGo obs fuel a (some .pending) = ⟨a + fuel, some .pending, fuel⟩ := by
  intro fuel
  induction fuel with
  | zero => intro a _; simp [pollGo]
  | succ n ih =>
      intro a h
      have ha := h a (Nat.le_refl a) (by omega)
      have ih2 := ih (a + 1) (by intro i h1 h2; exact h i (by omega) (by omega))
      cases hobs : obs a with
      | none =>
          rw [show a + (n + 1) = a + 1 + n from by omega]
          simp [pollGo, hobs, ih2]
      | some s =>
          simp only [isPendingObs, hobs] at ha
          obtain ⟨hs1, hs2⟩ := ha
          rw [show a + (n + 1) = a + 1 + n from by omega]
          simp [pollGo, hobs, hs1, hs2, ih2]

theorem pollGo_pending_exists (obs : Nat → Option StatusResult) :
    ∀ (fuel a : Nat) (fs : Option FinalStatus),
    (∀ i, a ≤ i → i < a + fuel → isPendingObs (obs i)) →
    (∃ j, a ≤ j ∧ j < a + fuel ∧ obs j ≠ none) →
    pollGo obs fuel a fs = ⟨a + fuel, some .pending, fuel⟩ := by
  intro fuel
  induction fuel with
  | zero =>
      intro a fs _ hex
      obtain ⟨j, hj1, hj2, _⟩ := hex
      omega
  | succ n ih =>
      intro a fs h hex
      have ha := h a (Nat.le_refl a) (by omega)
      cases hobs : obs a with
      | some s =>
          simp only [isPendingObs, hobs] at ha
          obtain ⟨hs1, hs2⟩ := ha
          have hk := pollGo_pending_keeps obs n (a + 1)
            (by intro i h1 h2; exact h i (by omega) (by omega))
          rw [show a + (n + 1) = a + 1 + n from by omega]
          simp [pollGo, hobs, hs1, hs2, hk]
      | none =>
          obtain ⟨j, hj1, hj2, hj3⟩ := hex
          have hja : j ≠ a := by
            intro hcontr
            rw [hcontr, hobs] at hj3
            exact hj3 rfl
          have ih2 := ih (a + 1) fs
            (by intro i h1 h2; exact h i (by omega) (by omega))
            ⟨j, by omega, by omega, hj3⟩
          rw [show a + (n + 1) = a + 1 + n from by omega]
          simp [pollGo, hobs, ih2]

/-- C2 (amended): when every one of the thirty observations is pending or
null, exhausting the attempt budget reports `timeout` exactly when every
observation was null (an errored query), and reports `pending` exactly when
at least one pending response was seen; in particular budget exhaustion
never reports `failed`, but a run that stayed pending ends `pending`, not
`timeout`, because the post-loop fixup assigns `timeout` only when
`finalStatus` is still null. -/
theorem pollFinal_budget_exhaustion (obs : Nat → Option StatusResult)
    (h : ∀ i, i < 30 → isPendingObs (obs i)) :
    (pollFinal obs = some .timeout ↔ (∀ i, i < 30 → obs i = none)) ∧
    (pollFinal obs = some .pending ↔ (∃ i, i < 30 ∧ obs i ≠ none)) := by
  by_cases hall : ∀ i, i < 30 → obs i = none
  · have hrun : pollGo obs 30 0 none = ⟨30, none, 30⟩ := by
      have := pollGo_all_null obs 30 0 none (by intro i h1 h2; exact hall i (by omega))
      simpa using this
    have hp : pollFinal obs = some .timeout := by
      simp [pollFinal, pollLoop, maxAttempts, hrun]
    refine ⟨⟨fun _ => hall, fun _ => hp⟩, ⟨?_, ?_⟩⟩
    · intro hpend
      exact absurd (hp.symm.trans hpend) (by decide)
    · rintro ⟨i, hi, hne⟩
      exact absurd (hall i hi) hne
  · push_neg at hall
    obtain ⟨i, hi, hne⟩ := hall
    have hrun : pollGo obs 30 0 none = ⟨30, some .pending, 30⟩ := by
      have := pollGo_pending_exists obs 30 0 none
        (by intro k h1 h2; exact h k (by omega)) ⟨i, by omega, by omega, hne⟩
      simpa using this
    have hp : pollFinal obs = some .pending := by
      simp [pollFinal, pollLoop, maxAttempts, hrun]
    refine ⟨⟨?_, ?_⟩, ⟨fun _ => ⟨i, hi, hne⟩, fun _ => hp⟩⟩
    · intro ht
      exact absurd (hp.symm.trans ht) (by decide)
    · intro hallnull
      exact absurd (hallnull i hi) hne

/-- C2 counterexample: thirty straight "Pending in queue" responses exhaust
the budget with the session still pending, and the reported outcome is
`pending` — not the `timeout` the claim requires (the stored pending status
is non-null, so the post-loop timeout fixup does not fire). -/
theorem pollFinal_all_pending_cex :
    pollFinal (fun _ => some ⟨"0", "Pending in queue"⟩) = some .pending ∧
    some FinalStatus.pending ≠ some FinalStatus.timeout := by
  refine ⟨by decide, by decide⟩

/-- Witness for the budget-exhaustion theorem: thirty null observations
report `timeout`. -/
theorem pollFinal_budget_exhaustion_witness :
    pollFinal (fun _ => none) = some FinalStatus.timeout := by
  have h := pollFinal_budget_exhaustion (fun _ => none) (by intro i _; trivial)
  exact h.1.mpr (fun i _ => rfl)

/-- C7 counterexample: a submission rejected with an empty result text
(status flag "0", result "") produces the placeholder "Unknown error" in the
route's error field — not the service's (empty) rejection reason verbatim,
as the claim requires of every rejected submission. -/
theorem submission_rejected_empty_reason_cex :
    (verifyPOST "id1" "0xabc" (some demoContract)
        (.ok ⟨"0", ""⟩) (fun _ => none)).response =
      ⟨false, 400, "Verification submission failed", some "Unknown error",
        none, none⟩ ∧
    some "Unknown error" ≠ some ("" : String) := by
  refine ⟨by decide, by decide⟩

/-- C7 (amended): every submission whose response carries a status flag
other than "1" is rejected with success false and HTTP 400, the error field
carrying the service's rejection reason verbatim when it is non-empty and
the placeholder "Unknown error" otherwise; the trace shows a single
submission and no status query, so no polling is attempted and the
submission is not retried. -/
theorem submission_rejected_no_poll (cid caddr : String) (c : ContractData)
    (vr : StatusResult) (obs : Nat → Option StatusResult)
    (hcid : cid ≠ "") (hcaddr : caddr ≠ "")
    (hsrc : ¬(c.source = "" ∧ c.sourcePath = "")) (hvr : vr.status ≠ "1") :
    (verifyPOST cid caddr (some c) (.ok vr) obs).response =
      ⟨false, 400, "Verification submission failed",
        some (if vr.result = "" then "Unknown error" else vr.result),
        none, none⟩ ∧
    (verifyPOST cid caddr (some c) (.ok vr) obs).events =
      [.connect, .findContract, .submit, .close] := by
  constructor <;> simp [verifyPOST, hcid, hcaddr, hsrc, hvr]

/-- Witness for the rejected-submission theorem at the already-verified
scenario. -/
theorem submission_rejected_no_poll_witness :
    (verifyPOST "id1" "0xabc" (some demoContract)
        (.ok ⟨"0", "already verified"⟩) (fun _ => none)).response.error =
      some "already verified" := by
  have h := submission_rejected_no_poll "id1" "0xabc" demoContract
    ⟨"0", "already verified"⟩ (fun _ => none) (by decide) (by decide)
    (by decide) (by decide)
  rw [h.1]
  decide

/-- C10: whenever the submission phase succeeds (service status flag "1"),
the route responds success true with HTTP 200 and the tracking guid, for
every sequence of poll observations; the poll outcome — favourable or not —
appears only in the nested status field, which equals `pollFinal obs`. -/
theorem submission_accepted_top_level_success (cid caddr : String)
    (c : ContractData) (vr : StatusResult) (obs : Nat → Option StatusResult)
    (hcid : cid ≠ "") (hcaddr : caddr ≠ "")
    (hsrc : ¬(c.source = "" ∧ c.sourcePath = "")) (hvr : vr.status = "1") :
    (verifyPOST cid caddr (some c) (.ok vr) obs).response.success = true ∧
    (verifyPOST cid caddr (some c) (.ok vr) obs).response.httpStatus = 200 ∧
    (verifyPOST cid caddr (some c) (.ok vr) obs).response.guid = some vr.result ∧
    (verifyPOST cid caddr (some c) (.ok vr) obs).response.status = pollFinal obs := by
  refine ⟨?_, ?_, ?_, ?_⟩ <;> simp [verifyPOST, hcid, hcaddr, hsrc, hvr]

/-- Witness for the accepted-submission theorem: with every status query
answering a failure text, the route still responds success true while the
nested status is the failed outcome. -/
theorem submission_accepted_top_level_success_witness :
    (verifyPOST "id1" "0xabc" (some demoContract) (.ok ⟨"1", "guid-1"⟩)
        (fun _ => some ⟨"0", "Fail - Unable to verify"⟩)).response.success = true ∧
    (verifyPOST "id1" "0xabc" (some demoContract) (.ok ⟨"1", "guid-1"⟩)
        (fun _ => some ⟨"0", "Fail - Unable to verify"⟩)).response.status =
      some (.failed "Fail - Unable to verify") := by
  have h := submission_accepted_top_level_success "id1" "0xabc" demoContract
    ⟨"1", "guid-1"⟩ (fun _ => some ⟨"0", "Fail - Unable to verify"⟩)
    (by decide) (by decide) (by decide) (by decide)
  exact ⟨h.1, h.2.2.2.trans (by decide)⟩

/-- A concrete accepted run whose poll loop takes two queries: the first
observation is pending, the second is verified. -/
def runHeldOpen : RouteRun :=
  verifyPOST "id1" "0xabc" (some demoContract) (.ok ⟨"1", "guid-1"⟩)
    (fun n => if n = 0 then some ⟨"0", "Pending in queue"⟩
              else some ⟨"1", "Pass - Verified"⟩)

/-- C9 counterexample: in the concrete accepted run, status queries are
issued while the storage connection is open — the connection opens before
the contract lookup and closes only in the final cleanup, after the poll
loop — contradicting the claim that the connection is closed at every step
of the poll loop. -/
theorem storage_open_during_poll_cex :
    someQueryWhileOpen false runHeldOpen.events = true ∧
    runHeldOpen.events =
      [.connect, .findContract, .submit, .statusQuery 0, .statusQuery 1, .close] := by
  refine ⟨by decide, by decide⟩

theorem queriesWhileOpen_statusQueries (l : List Nat) :
    queriesWhileOpen true (l.map Event.statusQuery ++ [Event.close]) = true := by
  induction l with
  | nil => rfl
  | cons a l ih => simpa [queriesWhileOpen] using ih

/-- C9 (amended): for every request handled by the verification route, the
storage connection is opened once before the contract lookup and closed only
by the final cleanup, which is the last event of every trace; consequently
every status query of the poll loop is issued while the storage connection
is open — the connection is held across the poll loop, not released around
the storage access. -/
theorem storage_connection_lifecycle (cid caddr : String)
    (contract : Option ContractData) (so : Except String StatusResult)
    (obs : Nat → Option StatusResult) :
    queriesWhileOpen false (verifyPOST cid caddr contract so obs).events = true ∧
    (verifyPOST cid caddr contract so obs).events.getLast? = some .close := by
  unfold verifyPOST
  split
  · exact ⟨rfl, rfl⟩
  · split
    · exact ⟨rfl, rfl⟩
    · split
      · exact ⟨rfl, rfl⟩
      · split
        · exact ⟨rfl, rfl⟩
        · split
          · constructor
            · simpa [queriesWhileOpen] using
                queriesWhileOpen_statusQueries
                  (List.range (pollLoop obs).queries)
            · exact List.getLast?_concat _
          · exact ⟨rfl, rfl⟩

end Kite
